import Mathlib

set_option autoImplicit false

/-!
Verification of `hardware_interface/imu_sensor_interface.h` from ros_control.

The header defines `ImuSensorHandle`, a read-only view over up to six
driver-owned `double*` buffers with a capability bitmask computed from
pointer presence, and `ImuSensorInterface`, a name-keyed registry of such
handles.  Pointers are modelled as `Option Nat` (a null pointer is `none`,
a non-null pointer is `some` address), the driver's memory as a function
from addresses to stored values, and `double` values as integers (no claim
involves floating-point arithmetic, only placement and identity of values).
-/

namespace RosControl

/-- A `double*`: `none` is the null pointer, `some a` a non-null pointer to
address `a` in the driver's memory. -/
abbrev Ptr := Option Nat

/-- The driver's memory: the value stored at each address.  One address
holds one `double`, modelled as an integer. -/
abbrev Memory := Nat → Int

/-- `ImuSensorHandle::Data`: the descriptor a driver fills in, with a name,
a frame id and six optional buffer pointers. -/
structure Data where
  name : String
  frame_id : String
  orientation : Ptr
  orientation_covariance : Ptr
  angular_velocity : Ptr
  angular_velocity_covariance : Ptr
  linear_acceleration : Ptr
  linear_acceleration_covariance : Ptr
deriving Repr, DecidableEq

/-- The default constructor `Data()`: empty strings and all six pointers
initialised to `0`, i.e. null. -/
def Data.init : Data :=
  { name := ""
    frame_id := ""
    orientation := none
    orientation_covariance := none
    angular_velocity := none
    angular_velocity_covariance := none
    linear_acceleration := none
    linear_acceleration_covariance := none }

/-- `enum Capabilities`: `ORIENTATION = 0x01`. -/
def ORIENTATION : Nat := 0x01

/-- `enum Capabilities`: `ORIENTATION_COVARIANCE = 0x02`. -/
def ORIENTATION_COVARIANCE : Nat := 0x02

/-- `enum Capabilities`: `ANGULAR_VELOCITY = 0x04`. -/
def ANGULAR_VELOCITY : Nat := 0x04

/-- `enum Capabilities`: `ANGULAR_VELOCITY_COVARIANCE = 0x08`. -/
def ANGULAR_VELOCITY_COVARIANCE : Nat := 0x08

/-- `enum Capabilities`: `LINEAR_ACCELERATION = 0x10`. -/
def LINEAR_ACCELERATION : Nat := 0x10

/-- `enum Capabilities`: `LINEAR_ACCELERATION_COVARIANCE = 0x20`. -/
def LINEAR_ACCELERATION_COVARIANCE : Nat := 0x20

/-- The state of an `ImuSensorHandle`: the copied strings, the six stored
view pointers (an `Eigen::Map` stores exactly the pointer it was built
over), and the capability mask (`unsigned short`; its value never exceeds
`0x3F`, so `Nat` is a faithful carrier). -/
structure ImuSensorHandle where
  name_ : String
  frame_id_ : String
  orientation_ : Ptr
  orientation_covariance_ : Ptr
  angular_velocity_ : Ptr
  angular_velocity_covariance_ : Ptr
  linear_acceleration_ : Ptr
  linear_acceleration_covariance_ : Ptr
  capabilities_ : Nat
deriving Repr, DecidableEq

/-- The capability mask as the constructor body computes it: start from `0`
and `|=` one flag per non-null pointer, in source order. -/
def capabilityMask (b1 b2 b3 b4 b5 b6 : Bool) : Nat :=
  let c := 0
  let c := if b1 then c ||| ORIENTATION else c
  let c := if b2 then c ||| ORIENTATION_COVARIANCE else c
  let c := if b3 then c ||| ANGULAR_VELOCITY else c
  let c := if b4 then c ||| ANGULAR_VELOCITY_COVARIANCE else c
  let c := if b5 then c ||| LINEAR_ACCELERATION else c
  let c := if b6 then c ||| LINEAR_ACCELERATION_COVARIANCE else c
  c

/-- `ImuSensorHandle::ImuSensorHandle(const Data&)`: copy the strings, bind
each view to the descriptor's pointer, and build the capability mask from
pointer presence (`if (data.x) capabilities_ |= X;` for each field). -/
def ImuSensorHandle.construct (data : Data) : ImuSensorHandle :=
  { name_ := data.name
    frame_id_ := data.frame_id
    orientation_ := data.orientation
    orientation_covariance_ := data.orientation_covariance
    angular_velocity_ := data.angular_velocity
    angular_velocity_covariance_ := data.angular_velocity_covariance
    linear_acceleration_ := data.linear_acceleration
    linear_acceleration_covariance_ := data.linear_acceleration_covariance
    capabilities_ :=
      capabilityMask data.orientation.isSome data.orientation_covariance.isSome
        data.angular_velocity.isSome data.angular_velocity_covariance.isSome
        data.linear_acceleration.isSome data.linear_acceleration_covariance.isSome }

/-- `getName()`. -/
def ImuSensorHandle.getName (h : ImuSensorHandle) : String := h.name_

/-- `getFrameId()`. -/
def ImuSensorHandle.getFrameId (h : ImuSensorHandle) : String := h.frame_id_

/-- `getCapabilities()`. -/
def ImuSensorHandle.getCapabilities (h : ImuSensorHandle) : Nat := h.capabilities_

/-- `getOrientation()`: returns the stored view, identified by its pointer. -/
def ImuSensorHandle.getOrientation (h : ImuSensorHandle) : Ptr := h.orientation_

/-- `getOrientationCovariance()`. -/
def ImuSensorHandle.getOrientationCovariance (h : ImuSensorHandle) : Ptr :=
  h.orientation_covariance_

/-- `getAngularVelocity()`. -/
def ImuSensorHandle.getAngularVelocity (h : ImuSensorHandle) : Ptr := h.angular_velocity_

/-- `getAngularVelocityCovariance()`. -/
def ImuSensorHandle.getAngularVelocityCovariance (h : ImuSensorHandle) : Ptr :=
  h.angular_velocity_covariance_

/-- `getLinearAcceleration()`. -/
def ImuSensorHandle.getLinearAcceleration (h : ImuSensorHandle) : Ptr :=
  h.linear_acceleration_

/-- `getLinearAccelerationCovariance()`. -/
def ImuSensorHandle.getLinearAccelerationCovariance (h : ImuSensorHandle) : Ptr :=
  h.linear_acceleration_covariance_

/-- Number of set bits among the six capability bits of a mask. -/
def bitsSet (n : Nat) : Nat := (List.range 6).countP n.testBit

/-- Number of non-null buffers in a descriptor. -/
def Data.presentCount (d : Data) : Nat :=
  [d.orientation.isSome, d.orientation_covariance.isSome,
   d.angular_velocity.isSome, d.angular_velocity_covariance.isSome,
   d.linear_acceleration.isSome, d.linear_acceleration_covariance.isSome].count true

/-!
View-read semantics.  An `Eigen::Map` evaluated against the driver's memory
reads directly through its stored pointer: a `Map<Quaternion<double>>`
stores its coefficients in `(x, y, z, w)` order at offsets `0..3`, a
`Map<Vector3d>` at offsets `0..2`, and a row-major `3x3` map reads entry
`(i, j)` at offset `3*i + j`.
-/

/-- Component `i` of a mapped quaternion view over pointer `p`, in the
coefficient order `(x, y, z, w)`. -/
def quaternionRead (p : Nat) (m : Memory) (i : Fin 4) : Int := m (p + i.val)

/-- Component `i` of a mapped 3-vector view over pointer `p`. -/
def vector3Read (p : Nat) (m : Memory) (i : Fin 3) : Int := m (p + i.val)

/-- Entry `(i, j)` of a mapped row-major `3x3` matrix view over pointer `p`. -/
def covarianceRead (p : Nat) (m : Memory) (i j : Fin 3) : Int :=
  m (p + (3 * i.val + j.val))

/-- The `len` consecutive values a buffer at address `p` holds in memory
`m`, in address order. -/
def bufferVals (p len : Nat) (m : Memory) : List Int :=
  (List.range len).map (fun k => m (p + k))

/-- Reading a handle's orientation view against memory `m`: `none` when the
view aliases the null pointer, otherwise the four quaternion components. -/
def ImuSensorHandle.readOrientation (h : ImuSensorHandle) (m : Memory) :
    Option (Fin 4 → Int) :=
  h.orientation_.map (fun p => quaternionRead p m)

/-- Reading a handle's angular velocity view against memory `m`. -/
def ImuSensorHandle.readAngularVelocity (h : ImuSensorHandle) (m : Memory) :
    Option (Fin 3 → Int) :=
  h.angular_velocity_.map (fun p => vector3Read p m)

/-- Reading a handle's linear acceleration view against memory `m`. -/
def ImuSensorHandle.readLinearAcceleration (h : ImuSensorHandle) (m : Memory) :
    Option (Fin 3 → Int) :=
  h.linear_acceleration_.map (fun p => vector3Read p m)

/-!
Registry.  `ImuSensorInterface` stores its handles in an
`internal::NamedResourceManager<ImuSensorHandle>`, whose code is not part
of this source tree; it is modelled from the spec below.
-/

/-- Modelled from the spec: `internal::NamedResourceManager`, missing from
the source tree, is "a mapping from sensor name (string, unique key) to
SensorHandle" with overwrite-on-duplicate insertion, name listing, and a
lookup that fails when the name is absent.  Entries are kept as a list of
name-handle pairs with unique names. -/
structure NamedResourceManager (α : Type) where
  entries : List (String × α)
deriving Repr

/-- Overwrite-or-append insertion on the underlying entry list: replace the
entry at an existing key in place, otherwise append a new entry. -/
def insertList {α : Type} : List (String × α) → String → α → List (String × α)
  | [], n, v => [(n, v)]
  | e :: l, n, v => if e.1 == n then (n, v) :: l else e :: insertList l n v

/-- Modelled from the spec: the manager's fresh (empty) state. -/
def NamedResourceManager.empty {α : Type} : NamedResourceManager α := ⟨[]⟩

/-- Modelled from the spec: `insert(name, resource)` with
overwrite-on-duplicate semantics ("registering an existing name overwrites
the prior entry at that key"). -/
def NamedResourceManager.insert {α : Type} (r : NamedResourceManager α)
    (name : String) (v : α) : NamedResourceManager α :=
  ⟨insertList r.entries name v⟩

/-- Modelled from the spec: `get(name)` returns the stored resource, or
fails (modelled as `none`; the C++ manager throws) when no entry exists. -/
def NamedResourceManager.get {α : Type} (r : NamedResourceManager α)
    (name : String) : Option α :=
  (r.entries.find? (fun e => e.1 == name)).map Prod.snd

/-- Modelled from the spec: `getNames()` returns the registered names. -/
def NamedResourceManager.getNames {α : Type} (r : NamedResourceManager α) :
    List String :=
  r.entries.map Prod.fst

/-- The manager's key-uniqueness invariant: "at most one handle per name at
any time". -/
def NamedResourceManager.wellFormed {α : Type} (r : NamedResourceManager α) : Prop :=
  (r.entries.map Prod.fst).Nodup

instance {α : Type} (r : NamedResourceManager α) : Decidable r.wellFormed := by
  unfold NamedResourceManager.wellFormed; infer_instance

/-- The entries a manager holds under a given name. -/
def NamedResourceManager.entriesFor {α : Type} (r : NamedResourceManager α)
    (name : String) : List (String × α) :=
  r.entries.filter (fun e => e.1 == name)

/-- Modelled from the spec: `internal::demangledTypeName(*this)`, missing
from the source tree, supplies "a human-readable type name for the
requesting interface, used only to enrich the NotFound error message". -/
def demangledTypeName : String := "hardware_interface::ImuSensorInterface"

/-- `HardwareInterfaceException`: the error thrown on a failed lookup,
carrying its message string. -/
structure HardwareInterfaceException where
  msg : String
deriving Repr, DecidableEq

/-- `ImuSensorInterface`: its whole state is the handle map. -/
structure ImuSensorInterface where
  handle_map_ : NamedResourceManager ImuSensorHandle

/-- A freshly constructed interface: the handle map is empty. -/
def ImuSensorInterface.empty : ImuSensorInterface := ⟨NamedResourceManager.empty⟩

/-- `getSensorNames()`: `return handle_map_.getNames();`. -/
def ImuSensorInterface.getSensorNames (iface : ImuSensorInterface) : List String :=
  iface.handle_map_.getNames

/-- `registerSensor(data)`: build `ImuSensorHandle handle(data)` and
`handle_map_.insert(data.name, handle)`. -/
def ImuSensorInterface.registerSensor (iface : ImuSensorInterface)
    (data : Data) : ImuSensorInterface :=
  ⟨iface.handle_map_.insert data.name (ImuSensorHandle.construct data)⟩

/-- `getSensorHandle(name)`: return `handle_map_.get(name)`, and on its
failure throw a `HardwareInterfaceException` naming the missing sensor and
the demangled interface type. -/
def ImuSensorInterface.getSensorHandle (iface : ImuSensorInterface)
    (name : String) : Except HardwareInterfaceException ImuSensorHandle :=
  match iface.handle_map_.get name with
  | some h => Except.ok h
  | none => Except.error
      ⟨"Could not find IMU sensor \x27" ++ name ++ "\x27 in " ++ demangledTypeName⟩

/-!
Concrete example inputs, used to exercise the theorems below at explicit
values.
-/

/-- An example descriptor with all six buffers present, laid out
consecutively from address 0. -/
def exDataA : Data :=
  { name := "imu_a"
    frame_id := "base_link"
    orientation := some 0
    orientation_covariance := some 4
    angular_velocity := some 13
    angular_velocity_covariance := some 20
    linear_acceleration := some 29
    linear_acceleration_covariance := some 32 }

/-- An example descriptor with the same name as `exDataA` but a different
frame and different buffers. -/
def exDataB : Data :=
  { name := "imu_a"
    frame_id := "other_frame"
    orientation := some 100
    orientation_covariance := none
    angular_velocity := none
    angular_velocity_covariance := none
    linear_acceleration := none
    linear_acceleration_covariance := none }

/-- An example descriptor under a second, distinct name. -/
def exDataC : Data :=
  { name := "imu_c"
    frame_id := "base_link"
    orientation := none
    orientation_covariance := none
    angular_velocity := some 50
    angular_velocity_covariance := none
    linear_acceleration := none
    linear_acceleration_covariance := none }

/-- An example memory state: address `a` holds the value `a`. -/
def exMem : Memory := fun a => (a : Int)

/-- An example registry holding `exDataA` and `exDataC`. -/
def exReg : ImuSensorInterface :=
  (ImuSensorInterface.empty.registerSensor exDataA).registerSensor exDataC

/-!
Helper lemmas.
-/

/-- All properties of the capability mask as a function of the six
presence bits, settled by exhausting the 64 combinations. -/
theorem capabilityMask_spec (b1 b2 b3 b4 b5 b6 : Bool) :
    bitsSet (capabilityMask b1 b2 b3 b4 b5 b6) = [b1, b2, b3, b4, b5, b6].count true
    ∧ (capabilityMask b1 b2 b3 b4 b5 b6).testBit 0 = b1
    ∧ (capabilityMask b1 b2 b3 b4 b5 b6).testBit 1 = b2
    ∧ (capabilityMask b1 b2 b3 b4 b5 b6).testBit 2 = b3
    ∧ (capabilityMask b1 b2 b3 b4 b5 b6).testBit 3 = b4
    ∧ (capabilityMask b1 b2 b3 b4 b5 b6).testBit 4 = b5
    ∧ (capabilityMask b1 b2 b3 b4 b5 b6).testBit 5 = b6
    ∧ capabilityMask b1 b2 b3 b4 b5 b6 ≤ 63
    ∧ capabilityMask b1 b2 b3 b4 b5 b6 &&& 63 = capabilityMask b1 b2 b3 b4 b5 b6 := by
  cases b1 <;> cases b2 <;> cases b3 <;> cases b4 <;> cases b5 <;> cases b6 <;> decide

/-- Looking up the inserted key finds exactly the inserted entry. -/
theorem find?_insertList_self {α : Type} (l : List (String × α)) (n : String) (v : α) :
    (insertList l n v).find? (fun e => e.1 == n) = some (n, v) := by
  induction l with
  | nil => simp [insertList]
  | cons e l ih =>
    by_cases h : e.1 = n
    · simp [insertList, h]
    · simp [insertList, h, ih]

/-- The keys after insertion are the inserted key or old keys. -/
theorem mem_map_fst_insertList {α : Type} (l : List (String × α)) (n : String)
    (v : α) (x : String) :
    x ∈ (insertList l n v).map Prod.fst ↔ x = n ∨ x ∈ l.map Prod.fst := by
  induction l with
  | nil => simp [insertList]
  | cons e l ih =>
    by_cases h : e.1 = n
    · simp [insertList, h]
    · simp [insertList, h, ih]
      tauto

/-- Insertion preserves key uniqueness. -/
theorem nodup_insertList {α : Type} {l : List (String × α)} (n : String) (v : α)
    (hl : (l.map Prod.fst).Nodup) :
    ((insertList l n v).map Prod.fst).Nodup := by
  induction l with
  | nil => simp [insertList]
  | cons e l ih =>
    rw [List.map_cons, List.nodup_cons] at hl
    by_cases h : e.1 = n
    · simp only [insertList, h, beq_self_eq_true, if_true, List.map_cons,
        List.nodup_cons]
      exact ⟨h ▸ hl.1, hl.2⟩
    · simp only [insertList, beq_iff_eq, h, if_false, List.map_cons,
        List.nodup_cons]
      refine ⟨fun hmem => ?_, ih hl.2⟩
      rcases (mem_map_fst_insertList l n v e.1).mp hmem with heq | hold
      · exact h heq
      · exact hl.1 hold

/-- On a key-unique entry list, insertion leaves exactly one entry under the
inserted key: the inserted one. -/
theorem filter_insertList_of_nodup {α : Type} {l : List (String × α)} (n : String)
    (v : α) (hl : (l.map Prod.fst).Nodup) :
    (insertList l n v).filter (fun e => e.1 == n) = [(n, v)] := by
  induction l with
  | nil => simp [insertList]
  | cons e l ih =>
    rw [List.map_cons, List.nodup_cons] at hl
    by_cases h : e.1 = n
    · simp only [insertList, h, beq_self_eq_true, if_true, List.filter_cons,
        beq_self_eq_true, if_true]
      have : l.filter (fun e => e.1 == n) = [] := by
        rw [List.filter_eq_nil_iff]
        intro a ha hkey
        exact hl.1 (h ▸ (beq_iff_eq.mp hkey) ▸ List.mem_map_of_mem Prod.fst ha)
      simp [this]
    · simp only [insertList, beq_iff_eq, h, if_false, List.filter_cons]
      exact ih hl.2

/-- A lookup succeeds exactly when the name is among the keys. -/
theorem find?_isSome_iff_mem {α : Type} (l : List (String × α)) (n : String) :
    (l.find? (fun e => e.1 == n)).isSome ↔ n ∈ l.map Prod.fst := by
  rw [List.find?_isSome]
  constructor
  · rintro ⟨e, he, hkey⟩
    exact (beq_iff_eq.mp hkey) ▸ List.mem_map_of_mem Prod.fst he
  · rintro hmem
    rcases List.mem_map.mp hmem with ⟨e, he, hkey⟩
    exact ⟨e, he, beq_iff_eq.mpr hkey⟩

/-- Looking up a descriptor's name right after registering it yields the
handle built from that descriptor. -/
theorem get_registerSensor_self (iface : ImuSensorInterface) (d : Data) :
    (iface.registerSensor d).handle_map_.get d.name
      = some (ImuSensorHandle.construct d) := by
  show Option.map Prod.snd
    (List.find? (fun e => e.1 == d.name)
      (insertList iface.handle_map_.entries d.name (ImuSensorHandle.construct d))) = _
  rw [find?_insertList_self]
  rfl

/-!
Claim theorems.
-/

/-- C1: for every descriptor `D`, the capability bitmask of the handle
built by `Construct(D)` has exactly one bit set per non-null buffer of `D`,
each set bit corresponding exactly to a non-null field: with `k` of the 6
buffers non-null the mask has exactly `k` bits set, and a descriptor with
all 6 buffers null yields mask `0`. -/
theorem capability_mask_counts_present_buffers (d : Data) :
    bitsSet (ImuSensorHandle.construct d).capabilities_ = d.presentCount
    ∧ (ImuSensorHandle.construct d).capabilities_.testBit 0 = d.orientation.isSome
    ∧ (ImuSensorHandle.construct d).capabilities_.testBit 1
        = d.orientation_covariance.isSome
    ∧ (ImuSensorHandle.construct d).capabilities_.testBit 2
        = d.angular_velocity.isSome
    ∧ (ImuSensorHandle.construct d).capabilities_.testBit 3
        = d.angular_velocity_covariance.isSome
    ∧ (ImuSensorHandle.construct d).capabilities_.testBit 4
        = d.linear_acceleration.isSome
    ∧ (ImuSensorHandle.construct d).capabilities_.testBit 5
        = d.linear_acceleration_covariance.isSome := by
  have h := capabilityMask_spec d.orientation.isSome d.orientation_covariance.isSome
    d.angular_velocity.isSome d.angular_velocity_covariance.isSome
    d.linear_acceleration.isSome d.linear_acceleration_covariance.isSome
  exact ⟨h.1, h.2.1, h.2.2.1, h.2.2.2.1, h.2.2.2.2.1, h.2.2.2.2.2.1, h.2.2.2.2.2.2.1⟩

/-- C10: for every descriptor `D`, the capability mask of `Construct(D)`
uses only the six designated bits: it is at most `63`, unchanged by masking
with `0x3F`, and every set bit lies below bit 6. -/
theorem capability_mask_uses_six_bits (d : Data) :
    (ImuSensorHandle.construct d).capabilities_ ≤ 63
    ∧ (ImuSensorHandle.construct d).capabilities_ &&& 63
        = (ImuSensorHandle.construct d).capabilities_
    ∧ ∀ i : Nat, (ImuSensorHandle.construct d).capabilities_.testBit i = true → i < 6 := by
  have h := capabilityMask_spec d.orientation.isSome d.orientation_covariance.isSome
    d.angular_velocity.isSome d.angular_velocity_covariance.isSome
    d.linear_acceleration.isSome d.linear_acceleration_covariance.isSome
  refine ⟨h.2.2.2.2.2.2.2.1, h.2.2.2.2.2.2.2.2, fun i hbit => ?_⟩
  by_contra hge
  push_neg at hge
  have hlt : (ImuSensorHandle.construct d).capabilities_ < 2 ^ i :=
    lt_of_le_of_lt h.2.2.2.2.2.2.2.1
      (lt_of_lt_of_le (by norm_num) (Nat.pow_le_pow_right (by norm_num) hge))
  exact absurd hbit (by simp [Nat.testBit_lt_two_pow hlt])

/-- C9: a default-constructed descriptor has an empty name, an empty frame
id and all six buffer pointers null, and the handle constructed from it has
an empty name, an empty frame id and capability mask `0`. -/
theorem default_descriptor_yields_empty_handle :
    Data.init.name = "" ∧ Data.init.frame_id = ""
    ∧ Data.init.orientation = none
    ∧ Data.init.orientation_covariance = none
    ∧ Data.init.angular_velocity = none
    ∧ Data.init.angular_velocity_covariance = none
    ∧ Data.init.linear_acceleration = none
    ∧ Data.init.linear_acceleration_covariance = none
    ∧ (ImuSensorHandle.construct Data.init).getName = ""
    ∧ (ImuSensorHandle.construct Data.init).getFrameId = ""
    ∧ (ImuSensorHandle.construct Data.init).getCapabilities = 0 :=
  ⟨rfl, rfl, rfl, rfl, rfl, rfl, rfl, rfl, rfl, rfl, rfl⟩

/-- C8: a handle is immutable after construction: its capability bit for a
field is set exactly when the descriptor's pointer for that field was
non-null at construction, and every operation on the handle is a pure
projection returning the name, frame id, capability mask, and view
addresses fixed at construction (so no operation changes them). -/
theorem handle_immutable_after_construction (d : Data) :
    (ImuSensorHandle.construct d).getCapabilities.testBit 0 = d.orientation.isSome
    ∧ (ImuSensorHandle.construct d).getCapabilities.testBit 1
        = d.orientation_covariance.isSome
    ∧ (ImuSensorHandle.construct d).getCapabilities.testBit 2
        = d.angular_velocity.isSome
    ∧ (ImuSensorHandle.construct d).getCapabilities.testBit 3
        = d.angular_velocity_covariance.isSome
    ∧ (ImuSensorHandle.construct d).getCapabilities.testBit 4
        = d.linear_acceleration.isSome
    ∧ (ImuSensorHandle.construct d).getCapabilities.testBit 5
        = d.linear_acceleration_covariance.isSome
    ∧ (ImuSensorHandle.construct d).getName = d.name
    ∧ (ImuSensorHandle.construct d).getFrameId = d.frame_id
    ∧ (ImuSensorHandle.construct d).getCapabilities
        = (ImuSensorHandle.construct d).capabilities_
    ∧ (ImuSensorHandle.construct d).getOrientation = d.orientation
    ∧ (ImuSensorHandle.construct d).getOrientationCovariance
        = d.orientation_covariance
    ∧ (ImuSensorHandle.construct d).getAngularVelocity = d.angular_velocity
    ∧ (ImuSensorHandle.construct d).getAngularVelocityCovariance
        = d.angular_velocity_covariance
    ∧ (ImuSensorHandle.construct d).getLinearAcceleration = d.linear_acceleration
    ∧ (ImuSensorHandle.construct d).getLinearAccelerationCovariance
        = d.linear_acceleration_covariance := by
  have h := capabilityMask_spec d.orientation.isSome d.orientation_covariance.isSome
    d.angular_velocity.isSome d.angular_velocity_covariance.isSome
    d.linear_acceleration.isSome d.linear_acceleration_covariance.isSome
  exact ⟨h.2.1, h.2.2.1, h.2.2.2.1, h.2.2.2.2.1, h.2.2.2.2.2.1, h.2.2.2.2.2.2.1,
    rfl, rfl, rfl, rfl, rfl, rfl, rfl, rfl, rfl⟩

/-- C2: `getSensorHandle(name)` fails exactly when no entry exists for
`name`; the error carries both the literal missing name and the requesting
interface's type name in its message; when an entry exists it returns the
registered handle without error. -/
theorem getSensorHandle_not_found_spec (iface : ImuSensorInterface) (name : String) :
    ((∃ e, iface.getSensorHandle name = Except.error e)
        ↔ iface.handle_map_.get name = none)
    ∧ (∀ e, iface.getSensorHandle name = Except.error e →
        e.msg = "Could not find IMU sensor \x27" ++ name ++ "\x27 in "
          ++ demangledTypeName
        ∧ (∃ a b, e.msg = a ++ name ++ b)
        ∧ ∃ a b, e.msg = a ++ demangledTypeName ++ b)
    ∧ ∀ h, iface.handle_map_.get name = some h →
        iface.getSensorHandle name = Except.ok h := by
  unfold ImuSensorInterface.getSensorHandle
  cases hg : iface.handle_map_.get name with
  | some h =>
    refine ⟨⟨fun ⟨e, he⟩ => by simp at he, fun hn => by simp at hn⟩,
      fun e he => by simp at he, fun h2 hh2 => ?_⟩
    exact congrArg Except.ok (Option.some_inj.mp hh2)
  | none =>
    refine ⟨⟨fun _ => rfl, fun _ => ⟨_, rfl⟩⟩, fun e he => ?_, fun h2 hh2 => by
      simp at hh2⟩
    have hmsg : e.msg = "Could not find IMU sensor \x27" ++ name ++ "\x27 in "
        ++ demangledTypeName := by
      cases he' : e
      simp [he'] at he
      simp [← he]
    refine ⟨hmsg, ⟨"Could not find IMU sensor \x27",
      "\x27 in " ++ demangledTypeName, ?_⟩,
      ⟨"Could not find IMU sensor \x27" ++ name ++ "\x27 in ", "", ?_⟩⟩
    · rw [hmsg]
      simp [String.append_assoc]
    · rw [hmsg]
      simp

/-- C3: registering two descriptors with the same name in sequence leaves
exactly one entry under that name, equal to the handle built from the
second descriptor, and preserves the at-most-one-handle-per-name
invariant. -/
theorem register_duplicate_overwrites (iface : ImuSensorInterface) (d1 d2 : Data)
    (hname : d1.name = d2.name) (hwf : iface.handle_map_.wellFormed) :
    ((iface.registerSensor d1).registerSensor d2).handle_map_.entriesFor d2.name
      = [(d2.name, ImuSensorHandle.construct d2)]
    ∧ ((iface.registerSensor d1).registerSensor d2).handle_map_.get d1.name
      = some (ImuSensorHandle.construct d2)
    ∧ ((iface.registerSensor d1).registerSensor d2).handle_map_.wellFormed := by
  rw [hname]
  have hwf1 : (((iface.registerSensor d1).handle_map_.entries).map Prod.fst).Nodup :=
    nodup_insertList d1.name (ImuSensorHandle.construct d1) hwf
  refine ⟨filter_insertList_of_nodup d2.name (ImuSensorHandle.construct d2) hwf1, ?_, ?_⟩
  · show Option.map Prod.snd
      (List.find? (fun e => e.1 == d2.name)
        (insertList (iface.registerSensor d1).handle_map_.entries d2.name
          (ImuSensorHandle.construct d2))) = _
    rw [find?_insertList_self]
    rfl
  · exact nodup_insertList d2.name (ImuSensorHandle.construct d2) hwf1

/-- C4: `registerSensor` is total: for every registry state and every
descriptor, including one whose name is already registered, registration
produces a new state without error, and the sensor is found under its name
as the handle built from the descriptor. -/
theorem registerSensor_total (iface : ImuSensorInterface) (d : Data) :
    (iface.registerSensor d).handle_map_.get d.name
      = some (ImuSensorHandle.construct d) :=
  get_registerSensor_self iface d

/-- C5: the handle returned by `getSensorHandle` after registering a
descriptor holds views over the very pointers the descriptor supplied (no
copy of buffer contents), so for every memory state — in particular one the
driver wrote after handle retrieval — reading a present view observes the
current contents at the descriptor's addresses. -/
theorem views_alias_descriptor_storage (iface : ImuSensorInterface) (d : Data)
    (m : Memory) :
    (iface.registerSensor d).getSensorHandle d.name
      = Except.ok (ImuSensorHandle.construct d)
    ∧ (ImuSensorHandle.construct d).getOrientation = d.orientation
    ∧ (ImuSensorHandle.construct d).getOrientationCovariance = d.orientation_covariance
    ∧ (ImuSensorHandle.construct d).getAngularVelocity = d.angular_velocity
    ∧ (ImuSensorHandle.construct d).getAngularVelocityCovariance
        = d.angular_velocity_covariance
    ∧ (ImuSensorHandle.construct d).getLinearAcceleration = d.linear_acceleration
    ∧ (ImuSensorHandle.construct d).getLinearAccelerationCovariance
        = d.linear_acceleration_covariance
    ∧ (ImuSensorHandle.construct d).readOrientation m
        = d.orientation.map (fun p => quaternionRead p m)
    ∧ (ImuSensorHandle.construct d).readAngularVelocity m
        = d.angular_velocity.map (fun p => vector3Read p m)
    ∧ (ImuSensorHandle.construct d).readLinearAcceleration m
        = d.linear_acceleration.map (fun p => vector3Read p m) := by
  refine ⟨?_, rfl, rfl, rfl, rfl, rfl, rfl, rfl, rfl, rfl⟩
  unfold ImuSensorInterface.getSensorHandle
  have : (iface.registerSensor d).handle_map_.get d.name
      = some (ImuSensorHandle.construct d) := get_registerSensor_self iface d
  rw [this]

/-- C6: `getSensorNames()` returns exactly the currently-registered names,
without duplicates, for every key-unique registry state regardless of the
order in which the names were registered. -/
theorem getSensorNames_exact (iface : ImuSensorInterface)
    (hwf : iface.handle_map_.wellFormed) :
    iface.getSensorNames.Nodup
    ∧ ∀ n, n ∈ iface.getSensorNames ↔ (iface.handle_map_.get n).isSome := by
  refine ⟨hwf, fun n => ?_⟩
  show n ∈ iface.handle_map_.entries.map Prod.fst
    ↔ (Option.map Prod.snd
        (iface.handle_map_.entries.find? (fun e => e.1 == n))).isSome = true
  rw [← find?_isSome_iff_mem iface.handle_map_.entries n]
  cases List.find? (fun e => e.1 == n) iface.handle_map_.entries <;> simp

/-- C7: a handle built from a descriptor with all six buffers present
exposes all six views over the supplied pointers; its quaternion view's
four components equal the source buffer's four values in `(x, y, z, w)`
order, and each covariance view's row-major traversal equals the
corresponding source buffer's nine values in order. -/
theorem round_trip_all_buffers (d : Data) (po poc pav pavc pla plac : Nat)
    (m : Memory)
    (h1 : d.orientation = some po)
    (h2 : d.orientation_covariance = some poc)
    (h3 : d.angular_velocity = some pav)
    (h4 : d.angular_velocity_covariance = some pavc)
    (h5 : d.linear_acceleration = some pla)
    (h6 : d.linear_acceleration_covariance = some plac) :
    (ImuSensorHandle.construct d).getOrientation = some po
    ∧ (ImuSensorHandle.construct d).getOrientationCovariance = some poc
    ∧ (ImuSensorHandle.construct d).getAngularVelocity = some pav
    ∧ (ImuSensorHandle.construct d).getAngularVelocityCovariance = some pavc
    ∧ (ImuSensorHandle.construct d).getLinearAcceleration = some pla
    ∧ (ImuSensorHandle.construct d).getLinearAccelerationCovariance = some plac
    ∧ [quaternionRead po m 0, quaternionRead po m 1, quaternionRead po m 2,
       quaternionRead po m 3] = bufferVals po 4 m
    ∧ [covarianceRead poc m 0 0, covarianceRead poc m 0 1, covarianceRead poc m 0 2,
       covarianceRead poc m 1 0, covarianceRead poc m 1 1, covarianceRead poc m 1 2,
       covarianceRead poc m 2 0, covarianceRead poc m 2 1, covarianceRead poc m 2 2]
        = bufferVals poc 9 m
    ∧ [covarianceRead pavc m 0 0, covarianceRead pavc m 0 1, covarianceRead pavc m 0 2,
       covarianceRead pavc m 1 0, covarianceRead pavc m 1 1, covarianceRead pavc m 1 2,
       covarianceRead pavc m 2 0, covarianceRead pavc m 2 1, covarianceRead pavc m 2 2]
        = bufferVals pavc 9 m
    ∧ [covarianceRead plac m 0 0, covarianceRead plac m 0 1, covarianceRead plac m 0 2,
       covarianceRead plac m 1 0, covarianceRead plac m 1 1, covarianceRead plac m 1 2,
       covarianceRead plac m 2 0, covarianceRead plac m 2 1, covarianceRead plac m 2 2]
        = bufferVals plac 9 m := by
  refine ⟨?_, ?_, ?_, ?_, ?_, ?_, rfl, rfl, rfl, rfl⟩
  · exact h1 ▸ rfl
  · exact h2 ▸ rfl
  · exact h3 ▸ rfl
  · exact h4 ▸ rfl
  · exact h5 ▸ rfl
  · exact h6 ▸ rfl

/-!
Witnesses: each applies its theorem at explicit concrete inputs,
discharging the hypotheses there.
-/

/-- Witness for C2 at the empty registry and the name `"missing"`. -/
theorem getSensorHandle_not_found_spec_witness :
    ∃ e, ImuSensorInterface.empty.getSensorHandle "missing" = Except.error e
      ∧ ∃ a b, e.msg = a ++ "missing" ++ b := by
  obtain ⟨hiff, hmsg, -⟩ :=
    getSensorHandle_not_found_spec ImuSensorInterface.empty "missing"
  obtain ⟨e, he⟩ := hiff.mpr rfl
  exact ⟨e, he, (hmsg e he).2.1⟩

/-- Witness for C3: registering `exDataB` over `exDataA` (same name) leaves
exactly the entry for `exDataB`. -/
theorem register_duplicate_overwrites_witness :
    ((ImuSensorInterface.empty.registerSensor exDataA).registerSensor
        exDataB).handle_map_.entriesFor exDataB.name
      = [(exDataB.name, ImuSensorHandle.construct exDataB)]
    ∧ ((ImuSensorInterface.empty.registerSensor exDataA).registerSensor
        exDataB).handle_map_.get exDataA.name
      = some (ImuSensorHandle.construct exDataB) :=
  have h := register_duplicate_overwrites ImuSensorInterface.empty exDataA exDataB
    rfl List.nodup_nil
  ⟨h.1, h.2.1⟩

/-- Witness for C6 at a registry holding two sensors. -/
theorem getSensorNames_exact_witness :
    exReg.getSensorNames.Nodup
    ∧ ("imu_a" ∈ exReg.getSensorNames ↔ (exReg.handle_map_.get "imu_a").isSome) :=
  have h := getSensorNames_exact exReg (by decide)
  ⟨h.1, h.2 "imu_a"⟩

/-- Witness for C7 at `exDataA` and the identity-valued memory. -/
theorem round_trip_all_buffers_witness :
    (ImuSensorHandle.construct exDataA).getOrientation = some 0
    ∧ [quaternionRead 0 exMem 0, quaternionRead 0 exMem 1, quaternionRead 0 exMem 2,
       quaternionRead 0 exMem 3] = bufferVals 0 4 exMem
    ∧ [covarianceRead 4 exMem 0 0, covarianceRead 4 exMem 0 1, covarianceRead 4 exMem 0 2,
       covarianceRead 4 exMem 1 0, covarianceRead 4 exMem 1 1, covarianceRead 4 exMem 1 2,
       covarianceRead 4 exMem 2 0, covarianceRead 4 exMem 2 1, covarianceRead 4 exMem 2 2]
        = bufferVals 4 9 exMem :=
  have h := round_trip_all_buffers exDataA 0 4 13 20 29 32 exMem
    rfl rfl rfl rfl rfl rfl
  ⟨h.1, h.2.2.2.2.2.2.1, h.2.2.2.2.2.2.2.1⟩

/-- Witness for C10 at `exDataA`: the mask is within six bits, and its set
bit 0 indeed lies below 6. -/
theorem capability_mask_uses_six_bits_witness :
    (ImuSensorHandle.construct exDataA).capabilities_ ≤ 63 ∧ (0 : Nat) < 6 :=
  ⟨(capability_mask_uses_six_bits exDataA).1,
   (capability_mask_uses_six_bits exDataA).2.2 0 (by decide)⟩

end RosControl
